import Mathlib

/-!
Shallow embedding of the deletion/undo federation core of the repository:
  crates/api_crud/src/community/delete.rs
  crates/apub_receive/src/activities/community/delete.rs
  crates/apub/src/activities/deletion/undo_delete.rs
Database rows become Lean structures, the connection pool becomes an explicit
`DbState`, external collaborators (JWT lookup, moderator views, remote fetch,
outbound apub delivery) become an `Env` record of total functions, and each
side effect of a run is recorded in an ordered `Event` trace.
-/

namespace Lemmy

/-- A federation URL reduced to the parts this code inspects: the host domain
(compared by `verify_domains_match`) and a path distinguishing ids on one host. -/
structure Url where
  domain : String
  path : String
deriving DecidableEq

/-- The `UserOperationCrud` variants used by the embedded code (lemmy_websocket). -/
inductive UserOperationCrud where
  | DeleteCommunity
  | RemoveCommunity
  | EditCommunity
  | EditPost
  | EditComment
deriving DecidableEq

/-- A community row: id, apub actor id, `local` origin flag, and the
`deleted` / `removed` flags this core transitions. -/
structure Community where
  id : Nat
  actor_id : Url
  «local» : Bool
  deleted : Bool
  removed : Bool
deriving DecidableEq

/-- A post row, reduced to what the deletion code touches. -/
structure Post where
  id : Nat
  ap_id : Url
  deleted : Bool
  removed : Bool
deriving DecidableEq

/-- A comment row, reduced to what the deletion code touches. -/
structure Comment where
  id : Nat
  ap_id : Url
  deleted : Bool
  removed : Bool
deriving DecidableEq

/-- The storage visible to this core: the community, post and comment tables. -/
structure DbState where
  communities : List Community
  posts : List Post
  comments : List Comment
deriving DecidableEq

/-- One observable side effect of a run, in the order the code performs them. -/
inductive Event where
  | readCommunity (apubId : Url)
  | readObject (apubId : Url)
  | fetchPerson (apubId : Url)
  | fetchCommunity (apubId : Url)
  | updateCommunityDeleted (communityId : Nat) (value : Bool)
  | updateCommunityRemoved (communityId : Nat) (value : Bool)
  | updatePostDeleted (postId : Nat) (value : Bool)
  | updatePostRemoved (postId : Nat) (value : Bool)
  | updateCommentDeleted (commentId : Nat) (value : Bool)
  | updateCommentRemoved (commentId : Nat) (value : Bool)
  | createModLogEntry (modPersonId : Nat) (communityId : Nat) (removed : Bool)
      (reason : Option String) (expires : Option Nat)
  | sendApubDelete (personId : Nat) (communityId : Nat) (deleted : Bool)
  | sendApubRemove (personId : Nat) (communityId : Nat) (reason : String) (removed : Bool)
  | forwardDeleteToFollowers (communityId : Nat) (actorPersonId : Nat)
  | wsMessage (objectId : Nat) (op : UserOperationCrud)
      (websocketId : Option Nat) (personId : Option Nat)
deriving DecidableEq

/-- Outcome of a fallible run. Rust `Err` becomes `err`; a Rust panic (an
out-of-bounds index) is a distinct, non-`Result` outcome `panicked`. -/
inductive RunResult where
  | ok
  | err (msg : String)
  | panicked (msg : String)
deriving DecidableEq

/-- Result of a state-mutating operation: outcome, final storage, effect trace. -/
structure RunOut where
  result : RunResult
  state : DbState
  trace : List Event
deriving DecidableEq

/-- Result of a verification: outcome plus the reads/fetches it performed. -/
structure VerifyOut where
  result : RunResult
  trace : List Event
deriving DecidableEq

/-- `Community::read_from_apub_id`: look a community up by its apub actor id. -/
def Community.read_from_apub_id (s : DbState) (u : Url) : Option Community :=
  s.communities.find? (fun c => decide (c.actor_id = u))

/-- `Community::update_deleted(conn, community_id, b)`: set the `deleted` flag
of every row with that id and return the updated row, or `none` when no row
matches (the diesel update returns `Err`). -/
def Community.update_deleted (s : DbState) (communityId : Nat) (b : Bool) :
    Option (Community × DbState) :=
  match s.communities.find? (fun c => decide (c.id = communityId)) with
  | none => none
  | some c =>
      some ({ c with deleted := b },
        { s with communities :=
            s.communities.map (fun d => if d.id = communityId then { d with deleted := b } else d) })

/-- `Community::update_removed(conn, community_id, b)`. -/
def Community.update_removed (s : DbState) (communityId : Nat) (b : Bool) :
    Option (Community × DbState) :=
  match s.communities.find? (fun c => decide (c.id = communityId)) with
  | none => none
  | some c =>
      some ({ c with removed := b },
        { s with communities :=
            s.communities.map (fun d => if d.id = communityId then { d with removed := b } else d) })

/-- `Post::update_deleted`. -/
def Post.update_deleted (s : DbState) (postId : Nat) (b : Bool) :
    Option (Post × DbState) :=
  match s.posts.find? (fun p => decide (p.id = postId)) with
  | none => none
  | some p =>
      some ({ p with deleted := b },
        { s with posts := s.posts.map (fun q => if q.id = postId then { q with deleted := b } else q) })

/-- `Post::update_removed`. -/
def Post.update_removed (s : DbState) (postId : Nat) (b : Bool) :
    Option (Post × DbState) :=
  match s.posts.find? (fun p => decide (p.id = postId)) with
  | none => none
  | some p =>
      some ({ p with removed := b },
        { s with posts := s.posts.map (fun q => if q.id = postId then { q with removed := b } else q) })

/-- `Comment::update_deleted`. -/
def Comment.update_deleted (s : DbState) (commentId : Nat) (b : Bool) :
    Option (Comment × DbState) :=
  match s.comments.find? (fun c => decide (c.id = commentId)) with
  | none => none
  | some c =>
      some ({ c with deleted := b },
        { s with comments :=
            s.comments.map (fun d => if d.id = commentId then { d with deleted := b } else d) })

/-- `Comment::update_removed`. -/
def Comment.update_removed (s : DbState) (commentId : Nat) (b : Bool) :
    Option (Comment × DbState) :=
  match s.comments.find? (fun c => decide (c.id = commentId)) with
  | none => none
  | some c =>
      some ({ c with removed := b },
        { s with comments :=
            s.comments.map (fun d => if d.id = commentId then { d with removed := b } else d) })

/-- The `deleted` flag of the community row with the given id, when one exists. -/
def deletedFlag (s : DbState) (communityId : Nat) : Option Bool :=
  (s.communities.find? (fun c => decide (c.id = communityId))).map Community.deleted

/-- The `removed` flag of the community row with the given id, when one exists. -/
def removedFlag (s : DbState) (communityId : Nat) : Option Bool :=
  (s.communities.find? (fun c => decide (c.id = communityId))).map Community.removed

/-- The `removed` flag of the post row with the given id, when one exists. -/
def postRemovedFlag (s : DbState) (postId : Nat) : Option Bool :=
  (s.posts.find? (fun p => decide (p.id = postId))).map Post.removed

/-- The `deleted` flag of the post row with the given id, when one exists. -/
def postDeletedFlag (s : DbState) (postId : Nat) : Option Bool :=
  (s.posts.find? (fun p => decide (p.id = postId))).map Post.deleted

/-- The `removed` flag of the comment row with the given id, when one exists. -/
def commentRemovedFlag (s : DbState) (commentId : Nat) : Option Bool :=
  (s.comments.find? (fun c => decide (c.id = commentId))).map Comment.removed

/-- The `deleted` flag of the comment row with the given id, when one exists. -/
def commentDeletedFlag (s : DbState) (commentId : Nat) : Option Bool :=
  (s.comments.find? (fun c => decide (c.id = commentId))).map Comment.deleted

/-- The external collaborators the excerpt calls into but does not define:
JWT resolution, the moderator view, the admin check, outbound apub delivery,
remote fetching, and the two verification helpers of the apub crate that the
excerpt only imports. Each is a total function supplied by the caller. -/
structure Env where
  moderators : Nat → List Nat
  jwtLocalUser : String → Option Nat
  isAdmin : Nat → Bool
  apubSendOk : Bool
  fetchPerson : Url → Option Nat
  sendDeleteOk : Bool
  fetchCommunity : Url → Option Community
  modActionOk : Url → Url → Bool
  apubIdValid : Url → Bool
  deleteVerifyOk : Url → Url → Url → Bool → Bool

/-- `verify_domains_match(a, b)` from lemmy_apub_lib: the two urls must share a domain. -/
def verify_domains_match (a b : Url) : Bool :=
  decide (a.domain = b.domain)

/-- Modelled from the spec: `get_or_fetch_and_upsert_person`
(crates/apub/src/fetcher/person.rs, not part of this excerpt). Per spec
section 4.1 it resolves a federation id to an actor, fetching remotely when
needed; the person table is not modelled, so it returns the person id. -/
def get_or_fetch_and_upsert_person (env : Env) (u : Url) : Option Nat :=
  env.fetchPerson u

/-- Modelled from the spec: `get_or_fetch_and_upsert_community`
(crates/apub/src/fetcher/community.rs, not part of this excerpt). Per spec
section 4.1: return the locally stored record when one exists, otherwise fetch
the remote representation and upsert it as a new local mirror row. -/
def get_or_fetch_and_upsert_community (env : Env) (s : DbState) (u : Url) :
    Option (Community × DbState) :=
  match Community.read_from_apub_id s u with
  | some c => some (c, s)
  | none =>
      match env.fetchCommunity u with
      | none => none
      | some c => some (c, { s with communities := c :: s.communities })

/-- The typed resolution result of a federation id (crates/apub deletion module). -/
inductive DeletableObjects where
  | Community (c : Community)
  | Post (p : Post)
  | Comment (c : Comment)
deriving DecidableEq

/-- Modelled from the spec: `DeletableObjects::read_from_db`
(crates/apub/src/activities/deletion/mod.rs, not part of this excerpt). Per
spec section 4.1 the resolver maps a federation identifier to the typed local
object when a local record exists, trying each object kind. -/
def DeletableObjects.read_from_db (s : DbState) (u : Url) : Option DeletableObjects :=
  match Community.read_from_apub_id s u with
  | some c => some (DeletableObjects.Community c)
  | none =>
      match s.posts.find? (fun p => decide (p.ap_id = u)) with
      | some p => some (DeletableObjects.Post p)
      | none =>
          match s.comments.find? (fun c => decide (c.ap_id = u)) with
          | some c => some (DeletableObjects.Comment c)
          | none => none

/-- The common fields of every activity: its own id and the stated actor. -/
structure ActivityCommonFields where
  id : Url
  actor : Url
deriving DecidableEq

/-- The inbound apub `DeleteCommunity` activity of
crates/apub_receive/src/activities/community/delete.rs: object url, the single
cc entry, and the common fields. -/
structure DeleteCommunityActivity where
  object : Url
  cc : Url
  common : ActivityCommonFields
deriving DecidableEq

/-- `DeleteCommunity::verify` (apub_receive): first the actor/id domain check,
then a storage read of the object; when the object is stored locally, the
audience check, the apub-id validity check and the mod-action check run; when
it is not, only the actor/object and actor/cc domain checks run. -/
def DeleteCommunityActivity.verify (env : Env) (s : DbState) (a : DeleteCommunityActivity) :
    VerifyOut :=
  if verify_domains_match a.common.actor a.common.id = false then
    { result := RunResult.err "domains dont match", trace := [] }
  else
    match Community.read_from_apub_id s a.object with
    | some c =>
        if verify_domains_match a.object a.cc = false then
          { result := RunResult.err "domains dont match", trace := [Event.readCommunity a.object] }
        else if env.apubIdValid a.common.actor = false then
          { result := RunResult.err "apub id invalid", trace := [Event.readCommunity a.object] }
        else if env.modActionOk a.common.actor c.actor_id then
          { result := RunResult.ok, trace := [Event.readCommunity a.object] }
        else
          { result := RunResult.err "NotAuthorized", trace := [Event.readCommunity a.object] }
    | none =>
        if verify_domains_match a.common.actor a.object = false then
          { result := RunResult.err "domains dont match", trace := [Event.readCommunity a.object] }
        else if verify_domains_match a.common.actor a.cc = false then
          { result := RunResult.err "domains dont match", trace := [Event.readCommunity a.object] }
        else
          { result := RunResult.ok, trace := [Event.readCommunity a.object] }

/-- `DeleteCommunity::receive` (apub_receive): read the object from storage;
when stored, resolve the acting person and forward the delete to the local
community followers; when not stored, refetch the remote community; then set
`deleted` to `true` and send one `DeleteCommunity` websocket message. -/
def DeleteCommunityActivity.receive (env : Env) (s : DbState) (a : DeleteCommunityActivity) :
    RunOut :=
  match Community.read_from_apub_id s a.object with
  | some c =>
      match get_or_fetch_and_upsert_person env a.common.actor with
      | none =>
          { result := RunResult.err "couldnt fetch person", state := s,
            trace := [Event.readCommunity a.object] }
      | some personId =>
          if env.sendDeleteOk = false then
            { result := RunResult.err "couldnt forward delete", state := s,
              trace := [Event.readCommunity a.object, Event.fetchPerson a.common.actor] }
          else
            match Community.update_deleted s c.id true with
            | none =>
                { result := RunResult.err "couldnt_update_community", state := s,
                  trace := [Event.readCommunity a.object, Event.fetchPerson a.common.actor,
                    Event.forwardDeleteToFollowers c.id personId] }
            | some (dc, s2) =>
                { result := RunResult.ok, state := s2,
                  trace := [Event.readCommunity a.object, Event.fetchPerson a.common.actor,
                    Event.forwardDeleteToFollowers c.id personId,
                    Event.updateCommunityDeleted c.id true,
                    Event.wsMessage dc.id UserOperationCrud.DeleteCommunity none none] }
  | none =>
      match get_or_fetch_and_upsert_community env s a.object with
      | none =>
          { result := RunResult.err "UnresolvableObject", state := s,
            trace := [Event.readCommunity a.object] }
      | some (c, s1) =>
          match Community.update_deleted s1 c.id true with
          | none =>
              { result := RunResult.err "couldnt_update_community", state := s1,
                trace := [Event.readCommunity a.object, Event.fetchCommunity a.object] }
          | some (dc, s2) =>
              { result := RunResult.ok, state := s2,
                trace := [Event.readCommunity a.object, Event.fetchCommunity a.object,
                  Event.updateCommunityDeleted c.id true,
                  Event.wsMessage dc.id UserOperationCrud.DeleteCommunity none none] }

/-- The `DeleteCommunity` request form of the api_common crate
(renamed here to avoid clashing with the apub activity of the same name). -/
structure DeleteCommunityRequest where
  community_id : Nat
  deleted : Bool
  auth : String
deriving DecidableEq

/-- The `RemoveCommunity` request form of the api_common crate. -/
structure RemoveCommunityRequest where
  community_id : Nat
  removed : Bool
  reason : Option String
  expires : Option Nat
  auth : String
deriving DecidableEq

/-- `DeleteCommunity::perform` (api_crud): resolve the JWT, fetch the
community moderator list, index element 0 of it (a Rust panic when the list is
empty), reject a requester who is not that top moderator, set the `deleted`
flag, send the apub delete (its failure propagates through `?`), and finally
send one `DeleteCommunity` websocket message. -/
def DeleteCommunityRequest.perform (env : Env) (s : DbState)
    (data : DeleteCommunityRequest) (websocket_id : Option Nat) : RunOut :=
  match env.jwtLocalUser data.auth with
  | none => { result := RunResult.err "not_logged_in", state := s, trace := [] }
  | some personId =>
      match env.moderators data.community_id with
      | [] =>
          { result := RunResult.panicked "index out of bounds: the len is 0 but the index is 0",
            state := s, trace := [] }
      | topModId :: _ =>
          if personId ≠ topModId then
            { result := RunResult.err "no_community_edit_allowed", state := s, trace := [] }
          else
            match Community.update_deleted s data.community_id data.deleted with
            | none => { result := RunResult.err "couldnt_update_community", state := s, trace := [] }
            | some (_, s2) =>
                if env.apubSendOk = false then
                  { result := RunResult.err "couldnt send apub delete", state := s2,
                    trace := [Event.updateCommunityDeleted data.community_id data.deleted] }
                else
                  { result := RunResult.ok, state := s2,
                    trace := [Event.updateCommunityDeleted data.community_id data.deleted,
                      Event.sendApubDelete personId data.community_id data.deleted,
                      Event.wsMessage data.community_id UserOperationCrud.DeleteCommunity
                        websocket_id (some personId)] }

/-- `RemoveCommunity::perform` (api_crud): resolve the JWT, require an admin,
set the `removed` flag, create the `ModRemoveCommunity` moderation-log entry
(realised as a trace event carrying the form fields), send the apub remove
(its failure propagates through `?`), and finally send one `RemoveCommunity`
websocket message carrying the acting person id. -/
def RemoveCommunityRequest.perform (env : Env) (s : DbState)
    (data : RemoveCommunityRequest) (websocket_id : Option Nat) : RunOut :=
  match env.jwtLocalUser data.auth with
  | none => { result := RunResult.err "not_logged_in", state := s, trace := [] }
  | some personId =>
      if env.isAdmin personId = false then
        { result := RunResult.err "not_an_admin", state := s, trace := [] }
      else
        match Community.update_removed s data.community_id data.removed with
        | none => { result := RunResult.err "couldnt_update_community", state := s, trace := [] }
        | some (_, s2) =>
            if env.apubSendOk = false then
              { result := RunResult.err "couldnt send apub remove", state := s2,
                trace := [Event.updateCommunityRemoved data.community_id data.removed,
                  Event.createModLogEntry personId data.community_id data.removed
                    data.reason data.expires] }
            else
              { result := RunResult.ok, state := s2,
                trace := [Event.updateCommunityRemoved data.community_id data.removed,
                  Event.createModLogEntry personId data.community_id data.removed
                    data.reason data.expires,
                  Event.sendApubRemove personId data.community_id (data.reason.getD "")
                    data.removed,
                  Event.wsMessage data.community_id UserOperationCrud.RemoveCommunity
                    websocket_id (some personId)] }

/-- The inner `Delete` activity wrapped by `UndoDelete` (object url, single cc
entry, optional summary, common fields). -/
structure Delete where
  object : Url
  cc : Url
  summary : Option String
  common : ActivityCommonFields
deriving DecidableEq

/-- The `UndoDelete` activity of crates/apub/src/activities/deletion/undo_delete.rs. -/
structure UndoDelete where
  object : Delete
  cc : Url
  common : ActivityCommonFields
deriving DecidableEq

/-- The `WebsocketMessages` record of the apub deletion module: the operation
kind to announce per object kind. -/
structure WebsocketMessages where
  community : UserOperationCrud
  post : UserOperationCrud
  comment : UserOperationCrud
deriving DecidableEq

/-- Modelled from the spec: `verify_activity` (crates/apub/src/activities/mod.rs,
not part of this excerpt). Per spec section 4.2 check 1 the stated actor's
domain must match the domain of the activity's own id. -/
def verify_activity (common : ActivityCommonFields) : RunResult :=
  if verify_domains_match common.actor common.id then RunResult.ok
  else RunResult.err "domains dont match"

/-- Modelled from the spec: `verify_delete_activity`
(crates/apub/src/activities/deletion/mod.rs, not part of this excerpt). Per
spec section 4.2 checks 3 to 5 it reads the object and runs the audience,
authorization and actor-liveness checks, abstracted here into one environment
predicate over the object, the cc entry, the actor, and whether the delete is
a removal. -/
def verify_delete_activity (env : Env) (object cc0 : Url)
    (common : ActivityCommonFields) (isRemoveMode : Bool) : VerifyOut :=
  if env.deleteVerifyOk object cc0 common.actor isRemoveMode then
    { result := RunResult.ok, trace := [Event.readObject object] }
  else
    { result := RunResult.err "delete activity verification failed",
      trace := [Event.readObject object] }

/-- Modelled from the spec: `Delete::verify`
(crates/apub/src/activities/deletion/delete.rs, not part of this excerpt). Per
spec section 4.2 check 2 the wrapped activity is verified on its own: common
verification of its fields followed by `verify_delete_activity` on its object. -/
def Delete.verify (env : Env) (d : Delete) : VerifyOut :=
  match verify_activity d.common with
  | RunResult.err e => { result := RunResult.err e, trace := [] }
  | _ => verify_delete_activity env d.object d.cc d.common d.summary.isSome

/-- `UndoDelete::verify`: `verify_activity` on the common fields first, then
the inner `Delete` is verified, then `verify_delete_activity` runs on the
inner object with the outer cc and common fields. -/
def UndoDelete.verify (env : Env) (u : UndoDelete) : VerifyOut :=
  match verify_activity u.common with
  | RunResult.err e => { result := RunResult.err e, trace := [] }
  | _ =>
      match Delete.verify env u.object with
      | { result := RunResult.err e, trace := t } => { result := RunResult.err e, trace := t }
      | { result := _, trace := t } =>
          match verify_delete_activity env u.object.object u.cc u.common
              u.object.summary.isSome with
          | { result := r, trace := t2 } => { result := r, trace := t ++ t2 }

/-- `UndoDelete::receive_undo_remove_action`: resolve the object; for a
community, reject when it is local, otherwise set `removed` to `false` and
send one `EditCommunity` message; for a post or comment set `removed` to
`false` and send one `EditPost` / `EditComment` message. -/
def UndoDelete.receive_undo_remove_action (s : DbState) (object : Url) : RunOut :=
  match DeletableObjects.read_from_db s object with
  | none =>
      { result := RunResult.err "NotFound", state := s, trace := [Event.readObject object] }
  | some (DeletableObjects.Community community) =>
      if community.«local» then
        { result := RunResult.err "Only local admin can restore community", state := s,
          trace := [Event.readObject object] }
      else
        match Community.update_removed s community.id false with
        | none =>
            { result := RunResult.err "couldnt_update_community", state := s,
              trace := [Event.readObject object] }
        | some (dc, s2) =>
            { result := RunResult.ok, state := s2,
              trace := [Event.readObject object,
                Event.updateCommunityRemoved community.id false,
                Event.wsMessage dc.id UserOperationCrud.EditCommunity none none] }
  | some (DeletableObjects.Post post) =>
      match Post.update_removed s post.id false with
      | none =>
          { result := RunResult.err "couldnt_update_post", state := s,
            trace := [Event.readObject object] }
      | some (rp, s2) =>
          { result := RunResult.ok, state := s2,
            trace := [Event.readObject object,
              Event.updatePostRemoved post.id false,
              Event.wsMessage rp.id UserOperationCrud.EditPost none none] }
  | some (DeletableObjects.Comment comment) =>
      match Comment.update_removed s comment.id false with
      | none =>
          { result := RunResult.err "couldnt_update_comment", state := s,
            trace := [Event.readObject object] }
      | some (rc, s2) =>
          { result := RunResult.ok, state := s2,
            trace := [Event.readObject object,
              Event.updateCommentRemoved comment.id false,
              Event.wsMessage rc.id UserOperationCrud.EditComment none none] }

/-- Modelled from the spec: `receive_delete_action`
(crates/apub/src/activities/deletion/mod.rs, not part of this excerpt). Per
spec sections 4.3 and 4.4: resolve the object; for a local community first
resolve the acting person and forward the delete to the community's own
followers; then set the object's `deleted` flag to the given value and send
the per-kind websocket message from `WebsocketMessages`. -/
def receive_delete_action (env : Env) (s : DbState) (object : Url) (actor : Url)
    (msgs : WebsocketMessages) (deleted : Bool) : RunOut :=
  match DeletableObjects.read_from_db s object with
  | none =>
      { result := RunResult.err "NotFound", state := s, trace := [Event.readObject object] }
  | some (DeletableObjects.Community community) =>
      if community.«local» then
        match get_or_fetch_and_upsert_person env actor with
        | none =>
            { result := RunResult.err "couldnt fetch person", state := s,
              trace := [Event.readObject object] }
        | some personId =>
            if env.sendDeleteOk = false then
              { result := RunResult.err "couldnt forward delete", state := s,
                trace := [Event.readObject object, Event.fetchPerson actor] }
            else
              match Community.update_deleted s community.id deleted with
              | none =>
                  { result := RunResult.err "couldnt_update_community", state := s,
                    trace := [Event.readObject object, Event.fetchPerson actor,
                      Event.forwardDeleteToFollowers community.id personId] }
              | some (dc, s2) =>
                  { result := RunResult.ok, state := s2,
                    trace := [Event.readObject object, Event.fetchPerson actor,
                      Event.forwardDeleteToFollowers community.id personId,
                      Event.updateCommunityDeleted community.id deleted,
                      Event.wsMessage dc.id msgs.community none none] }
      else
        match Community.update_deleted s community.id deleted with
        | none =>
            { result := RunResult.err "couldnt_update_community", state := s,
              trace := [Event.readObject object] }
        | some (dc, s2) =>
            { result := RunResult.ok, state := s2,
              trace := [Event.readObject object,
                Event.updateCommunityDeleted community.id deleted,
                Event.wsMessage dc.id msgs.community none none] }
  | some (DeletableObjects.Post post) =>
      match Post.update_deleted s post.id deleted with
      | none =>
          { result := RunResult.err "couldnt_update_post", state := s,
            trace := [Event.readObject object] }
      | some (dp, s2) =>
          { result := RunResult.ok, state := s2,
            trace := [Event.readObject object,
              Event.updatePostDeleted post.id deleted,
              Event.wsMessage dp.id msgs.post none none] }
  | some (DeletableObjects.Comment comment) =>
      match Comment.update_deleted s comment.id deleted with
      | none =>
          { result := RunResult.err "couldnt_update_comment", state := s,
            trace := [Event.readObject object] }
      | some (dc, s2) =>
          { result := RunResult.ok, state := s2,
            trace := [Event.readObject object,
              Event.updateCommentDeleted comment.id deleted,
              Event.wsMessage dc.id msgs.comment none none] }

/-- `UndoDelete::receive`: when the wrapped Delete carries a summary the undo
is an undo-remove, otherwise it is an undo of a self-delete, dispatched to
`receive_delete_action` with the Edit operation kinds and value `false`. -/
def UndoDelete.receive (env : Env) (s : DbState) (u : UndoDelete) : RunOut :=
  if u.object.summary.isSome then
    UndoDelete.receive_undo_remove_action s u.object.object
  else
    receive_delete_action env s u.object.object u.common.actor
      { community := UserOperationCrud.EditCommunity,
        post := UserOperationCrud.EditPost,
        comment := UserOperationCrud.EditComment } false

/-- Number of `DeleteCommunity` websocket notifications in a trace. -/
def countWsDel (t : List Event) : Nat :=
  t.countP (fun e =>
    match e with
    | Event.wsMessage _ UserOperationCrud.DeleteCommunity _ _ => true
    | _ => false)

/-- Concrete test fixtures: a local community, a removed remote mirror, and an
unrelated remote community that is not stored locally. -/
def uLocal : Url := ⟨"local-instance.example", "/c/main"⟩

def uRemote : Url := ⟨"far-instance.example", "/c/mirror"⟩

def uRemoteAdmin : Url := ⟨"far-instance.example", "/u/admin"⟩

def uFollowers : Url := ⟨"local-instance.example", "/c/main/followers"⟩

def cLocal : Community := ⟨1, uLocal, true, false, false⟩

def cRemote : Community := ⟨2, uRemote, false, false, true⟩

def cOther : Community := ⟨3, ⟨"third.example", "/c/other"⟩, false, false, false⟩

def pRemote : Post := ⟨11, ⟨"far-instance.example", "/post/11"⟩, true, false⟩

def s0 : DbState := ⟨[cLocal, cRemote], [], []⟩

def sP : DbState := ⟨[cLocal, cRemote], [pRemote], []⟩

/-- A concrete environment: person 7 is the top moderator of community 1,
person 9 is an admin, every remote fetch succeeds, outbound delivery succeeds. -/
def env0 : Env :=
  { moderators := fun cid => if cid = 1 then [7, 8] else [],
    jwtLocalUser := fun a => if a = "tok7" then some 7 else if a = "tok9" then some 9 else none,
    isAdmin := fun pid => decide (pid = 9),
    apubSendOk := true,
    fetchPerson := fun _ => some 42,
    sendDeleteOk := true,
    fetchCommunity := fun u => if u = cOther.actor_id then some cOther else none,
    modActionOk := fun _ _ => true,
    apubIdValid := fun _ => true,
    deleteVerifyOk := fun _ _ _ _ => true }

/-- The same environment with the outbound apub delivery failing. -/
def envNoSend : Env := { env0 with apubSendOk := false }

/-- An inbound delete whose object is the locally stored community. -/
def aDelStored : DeleteCommunityActivity :=
  { object := uLocal, cc := uFollowers,
    common := { id := ⟨"far-instance.example", "/activities/delete/1"⟩, actor := uRemoteAdmin } }

/-- An inbound delete whose object is not stored locally. -/
def aDelUnstored : DeleteCommunityActivity :=
  { object := cOther.actor_id, cc := ⟨"third.example", "/f"⟩,
    common := ⟨⟨"third.example", "/activities/delete/2"⟩, ⟨"third.example", "/u/m"⟩⟩ }

/-- An inbound delete whose actor domain differs from its own id domain. -/
def aMismatch : DeleteCommunityActivity :=
  { object := uLocal, cc := uFollowers,
    common := ⟨⟨"x.example", "/activities/delete/3"⟩, ⟨"y.example", "/u/spoof"⟩⟩ }

/-- A delete of the remote mirror community with a summary, issued by a remote
admin identity. -/
def delRemote : Delete :=
  { object := uRemote, cc := ⟨"far-instance.example", "/f"⟩, summary := some "spam",
    common := ⟨⟨"far-instance.example", "/activities/delete/4"⟩, uRemoteAdmin⟩ }

/-- An undo of `delRemote`, likewise carried by a remote admin identity. -/
def undoRemoveRemote : UndoDelete :=
  { object := delRemote, cc := ⟨"far-instance.example", "/f"⟩,
    common := ⟨⟨"far-instance.example", "/activities/undo/1"⟩, uRemoteAdmin⟩ }

/-- An undo whose actor domain differs from its own id domain. -/
def undoMismatch : UndoDelete :=
  { object := delRemote, cc := ⟨"far-instance.example", "/f"⟩,
    common := ⟨⟨"x.example", "/activities/undo/2"⟩, ⟨"y.example", "/u/spoof"⟩⟩ }

/-- A summaryless delete of the stored post, wrapped by an undo (a restore
from self-delete). -/
def delPost : Delete :=
  { object := pRemote.ap_id, cc := ⟨"far-instance.example", "/f"⟩, summary := none,
    common := ⟨⟨"far-instance.example", "/activities/delete/5"⟩, uRemoteAdmin⟩ }

/-- An undo of `delPost`. -/
def undoSelfPost : UndoDelete :=
  { object := delPost, cc := ⟨"far-instance.example", "/f"⟩,
    common := ⟨⟨"far-instance.example", "/activities/undo/3"⟩, uRemoteAdmin⟩ }

/-- The delete activity of claim C10: the object is unresolved locally, the
actor shares a domain with the object and with the cc entry, but not with the
id of the activity itself. -/
def aTenMismatch : DeleteCommunityActivity :=
  { object := ⟨"far-instance.example", "/c/nowhere"⟩, cc := ⟨"far-instance.example", "/f"⟩,
    common := ⟨⟨"elsewhere.example", "/activities/delete/6"⟩, ⟨"far-instance.example", "/u/x"⟩⟩ }

/-- The id of a resolved deletable object. -/
def DeletableObjects.objId : DeletableObjects → Nat
  | DeletableObjects.Community c => c.id
  | DeletableObjects.Post p => p.id
  | DeletableObjects.Comment c => c.id

/-- The Edit operation kind matching a resolved deletable object. -/
def DeletableObjects.editOp : DeletableObjects → UserOperationCrud
  | DeletableObjects.Community _ => UserOperationCrud.EditCommunity
  | DeletableObjects.Post _ => UserOperationCrud.EditPost
  | DeletableObjects.Comment _ => UserOperationCrud.EditComment

/-- The `removed` flag of the row a deletable object refers to. -/
def DeletableObjects.removedOf (s : DbState) : DeletableObjects → Option Bool
  | DeletableObjects.Community c => removedFlag s c.id
  | DeletableObjects.Post p => postRemovedFlag s p.id
  | DeletableObjects.Comment c => commentRemovedFlag s c.id

/-- The `deleted` flag of the row a deletable object refers to. -/
def DeletableObjects.deletedOf (s : DbState) : DeletableObjects → Option Bool
  | DeletableObjects.Community c => deletedFlag s c.id
  | DeletableObjects.Post p => postDeletedFlag s p.id
  | DeletableObjects.Comment c => commentDeletedFlag s c.id

/-- A delete of the local community with a summary, issued by a remote admin
identity, wrapped by an undo. -/
def delLocalRemove : Delete :=
  { object := uLocal, cc := uFollowers, summary := some "bad",
    common := ⟨⟨"far-instance.example", "/activities/delete/7"⟩, uRemoteAdmin⟩ }

/-- An undo of `delLocalRemove`. -/
def undoRemoveLocal : UndoDelete :=
  { object := delLocalRemove, cc := uFollowers,
    common := ⟨⟨"far-instance.example", "/activities/undo/4"⟩, uRemoteAdmin⟩ }

/-- `env0` with every authorization and apub-id check failing. -/
def envStrict : Env :=
  { env0 with modActionOk := fun _ _ => false, apubIdValid := fun _ => false }

/-- Searching a mapped list with a predicate the map preserves finds the image
of what the search on the original list finds. -/
theorem find_map_pres {α : Type} (p : α → Bool) (g : α → α)
    (hp : ∀ x, p (g x) = p x) (l : List α) :
    (l.map g).find? p = (l.find? p).map g := by
  induction l with
  | nil => rfl
  | cons x xs ih =>
      cases hx : p x with
      | true =>
          rw [List.map_cons, List.find?_cons_of_pos _ (by rw [hp]; exact hx),
            List.find?_cons_of_pos _ hx]
          rfl
      | false =>
          rw [List.map_cons, List.find?_cons_of_neg _ (by rw [hp, hx]; exact Bool.false_ne_true),
            List.find?_cons_of_neg _ (by rw [hx]; exact Bool.false_ne_true), ih]

/-- Mapping a function that fixes every element of a list leaves it unchanged. -/
theorem map_fix {α : Type} (g : α → α) (l : List α) (h : ∀ x ∈ l, g x = x) :
    l.map g = l := by
  induction l with
  | nil => rfl
  | cons x xs ih =>
      rw [List.map_cons, h x (List.mem_cons_self x xs),
        ih (fun y hy => h y (List.mem_cons_of_mem x hy))]

/-- Mapping a pointwise idempotent function twice is the same as mapping it once. -/
theorem map_idem {α : Type} (g : α → α) (l : List α) (h : ∀ x, g (g x) = g x) :
    (l.map g).map g = l.map g := by
  apply map_fix
  intro x hx
  obtain ⟨y, _, rfl⟩ := List.mem_map.mp hx
  exact h y

/-- A community that is a member of the table is found when searching by its id. -/
theorem find_id_of_mem {l : List Community} {c : Community} (h : c ∈ l) :
    ∃ c0, l.find? (fun d => decide (d.id = c.id)) = some c0 ∧ c0.id = c.id := by
  have h1 : (l.find? (fun d => decide (d.id = c.id))).isSome :=
    List.find?_isSome.mpr ⟨c, h, by simp⟩
  obtain ⟨c0, hc0⟩ := Option.isSome_iff_exists.mp h1
  exact ⟨c0, hc0, by simpa using List.find?_some hc0⟩

/-- Characterization of a successful `Community.update_deleted`. -/
theorem update_deleted_eq {s : DbState} {cid : Nat} {b : Bool} {c2 : Community} {s2 : DbState}
    (h : Community.update_deleted s cid b = some (c2, s2)) :
    ∃ c, s.communities.find? (fun d => decide (d.id = cid)) = some c ∧
      c2 = { c with deleted := b } ∧ c.id = cid ∧
      s2 = { s with communities :=
        s.communities.map (fun d => if d.id = cid then { d with deleted := b } else d) } := by
  unfold Community.update_deleted at h
  cases hf : s.communities.find? (fun d => decide (d.id = cid)) with
  | none => rw [hf] at h; exact absurd h (by simp)
  | some c =>
      rw [hf] at h
      have hcid : c.id = cid := by simpa using List.find?_some hf
      simp only [Option.some.injEq, Prod.mk.injEq] at h
      exact ⟨c, rfl, h.1.symm, hcid, h.2.symm⟩

/-- Characterization of a successful `Community.update_removed`. -/
theorem update_removed_eq {s : DbState} {cid : Nat} {b : Bool} {c2 : Community} {s2 : DbState}
    (h : Community.update_removed s cid b = some (c2, s2)) :
    ∃ c, s.communities.find? (fun d => decide (d.id = cid)) = some c ∧
      c2 = { c with removed := b } ∧ c.id = cid ∧
      s2 = { s with communities :=
        s.communities.map (fun d => if d.id = cid then { d with removed := b } else d) } := by
  unfold Community.update_removed at h
  cases hf : s.communities.find? (fun d => decide (d.id = cid)) with
  | none => rw [hf] at h; exact absurd h (by simp)
  | some c =>
      rw [hf] at h
      have hcid : c.id = cid := by simpa using List.find?_some hf
      simp only [Option.some.injEq, Prod.mk.injEq] at h
      exact ⟨c, rfl, h.1.symm, hcid, h.2.symm⟩

/-- After a successful `Community.update_deleted` the row carries the new value. -/
theorem update_deleted_flag {s : DbState} {cid : Nat} {b : Bool} {c2 : Community} {s2 : DbState}
    (h : Community.update_deleted s cid b = some (c2, s2)) :
    deletedFlag s2 cid = some b ∧ c2.id = cid := by
  obtain ⟨c, hf, hc2, hcid, hs2⟩ := update_deleted_eq h
  subst hs2
  constructor
  · show ((s.communities.map fun d => if d.id = cid then { d with deleted := b } else d).find?
        (fun d => decide (d.id = cid))).map Community.deleted = some b
    rw [find_map_pres (fun d => decide (d.id = cid))
        (fun d => if d.id = cid then { d with deleted := b } else d)
        (fun x => by by_cases hx : x.id = cid <;> simp [hx]) s.communities, hf]
    simp [hcid]
  · rw [hc2]
    exact hcid

/-- After a successful `Community.update_removed` the row carries the new value. -/
theorem update_removed_flag {s : DbState} {cid : Nat} {b : Bool} {c2 : Community} {s2 : DbState}
    (h : Community.update_removed s cid b = some (c2, s2)) :
    removedFlag s2 cid = some b ∧ c2.id = cid := by
  obtain ⟨c, hf, hc2, hcid, hs2⟩ := update_removed_eq h
  subst hs2
  constructor
  · show ((s.communities.map fun d => if d.id = cid then { d with removed := b } else d).find?
        (fun d => decide (d.id = cid))).map Community.removed = some b
    rw [find_map_pres (fun d => decide (d.id = cid))
        (fun d => if d.id = cid then { d with removed := b } else d)
        (fun x => by by_cases hx : x.id = cid <;> simp [hx]) s.communities, hf]
    simp [hcid]
  · rw [hc2]
    exact hcid

/-- After a successful `Post.update_removed` the row carries the new value. -/
theorem post_update_removed_flag {s : DbState} {pid : Nat} {b : Bool} {p2 : Post} {s2 : DbState}
    (h : Post.update_removed s pid b = some (p2, s2)) :
    postRemovedFlag s2 pid = some b ∧ p2.id = pid := by
  unfold Post.update_removed at h
  cases hf : s.posts.find? (fun p => decide (p.id = pid)) with
  | none => rw [hf] at h; exact absurd h (by simp)
  | some p =>
      rw [hf] at h
      have hcid : p.id = pid := by simpa using List.find?_some hf
      simp only [Option.some.injEq, Prod.mk.injEq] at h
      obtain ⟨hp2, hs2⟩ := h
      subst hs2
      refine ⟨?_, by rw [← hp2]; exact hcid⟩
      show ((s.posts.map fun q => if q.id = pid then { q with removed := b } else q).find?
          (fun q => decide (q.id = pid))).map Post.removed = some b
      rw [find_map_pres (fun q => decide (q.id = pid))
          (fun q => if q.id = pid then { q with removed := b } else q)
          (fun x => by by_cases hx : x.id = pid <;> simp [hx]) s.posts, hf]
      simp [hcid]

/-- After a successful `Post.update_deleted` the row carries the new value. -/
theorem post_update_deleted_flag {s : DbState} {pid : Nat} {b : Bool} {p2 : Post} {s2 : DbState}
    (h : Post.update_deleted s pid b = some (p2, s2)) :
    postDeletedFlag s2 pid = some b ∧ p2.id = pid := by
  unfold Post.update_deleted at h
  cases hf : s.posts.find? (fun p => decide (p.id = pid)) with
  | none => rw [hf] at h; exact absurd h (by simp)
  | some p =>
      rw [hf] at h
      have hcid : p.id = pid := by simpa using List.find?_some hf
      simp only [Option.some.injEq, Prod.mk.injEq] at h
      obtain ⟨hp2, hs2⟩ := h
      subst hs2
      refine ⟨?_, by rw [← hp2]; exact hcid⟩
      show ((s.posts.map fun q => if q.id = pid then { q with deleted := b } else q).find?
          (fun q => decide (q.id = pid))).map Post.deleted = some b
      rw [find_map_pres (fun q => decide (q.id = pid))
          (fun q => if q.id = pid then { q with deleted := b } else q)
          (fun x => by by_cases hx : x.id = pid <;> simp [hx]) s.posts, hf]
      simp [hcid]

/-- After a successful `Comment.update_removed` the row carries the new value. -/
theorem comment_update_removed_flag {s : DbState} {cid : Nat} {b : Bool} {c2 : Comment}
    {s2 : DbState} (h : Comment.update_removed s cid b = some (c2, s2)) :
    commentRemovedFlag s2 cid = some b ∧ c2.id = cid := by
  unfold Comment.update_removed at h
  cases hf : s.comments.find? (fun c => decide (c.id = cid)) with
  | none => rw [hf] at h; exact absurd h (by simp)
  | some c =>
      rw [hf] at h
      have hcid : c.id = cid := by simpa using List.find?_some hf
      simp only [Option.some.injEq, Prod.mk.injEq] at h
      obtain ⟨hc2, hs2⟩ := h
      subst hs2
      refine ⟨?_, by rw [← hc2]; exact hcid⟩
      show ((s.comments.map fun d => if d.id = cid then { d with removed := b } else d).find?
          (fun d => decide (d.id = cid))).map Comment.removed = some b
      rw [find_map_pres (fun d => decide (d.id = cid))
          (fun d => if d.id = cid then { d with removed := b } else d)
          (fun x => by by_cases hx : x.id = cid <;> simp [hx]) s.comments, hf]
      simp [hcid]

/-- After a successful `Comment.update_deleted` the row carries the new value. -/
theorem comment_update_deleted_flag {s : DbState} {cid : Nat} {b : Bool} {c2 : Comment}
    {s2 : DbState} (h : Comment.update_deleted s cid b = some (c2, s2)) :
    commentDeletedFlag s2 cid = some b ∧ c2.id = cid := by
  unfold Comment.update_deleted at h
  cases hf : s.comments.find? (fun c => decide (c.id = cid)) with
  | none => rw [hf] at h; exact absurd h (by simp)
  | some c =>
      rw [hf] at h
      have hcid : c.id = cid := by simpa using List.find?_some hf
      simp only [Option.some.injEq, Prod.mk.injEq] at h
      obtain ⟨hc2, hs2⟩ := h
      subst hs2
      refine ⟨?_, by rw [← hc2]; exact hcid⟩
      show ((s.comments.map fun d => if d.id = cid then { d with deleted := b } else d).find?
          (fun d => decide (d.id = cid))).map Comment.deleted = some b
      rw [find_map_pres (fun d => decide (d.id = cid))
          (fun d => if d.id = cid then { d with deleted := b } else d)
          (fun x => by by_cases hx : x.id = cid <;> simp [hx]) s.comments, hf]
      simp [hcid]

/-- Claim C6: an inbound Delete activity (and likewise an Undo of a Delete)
whose stated actor domain differs from the domain of the activity's own id
fails verification at the first check: the result is an error and the effect
trace is empty, so no storage read, no remote fetch, and no mutation happened. -/
theorem verify_domain_mismatch_rejects_first :
    (∀ (env : Env) (s : DbState) (a : DeleteCommunityActivity),
      a.common.actor.domain ≠ a.common.id.domain →
      DeleteCommunityActivity.verify env s a =
        { result := RunResult.err "domains dont match", trace := [] }) ∧
    (∀ (env : Env) (u : UndoDelete),
      u.common.actor.domain ≠ u.common.id.domain →
      UndoDelete.verify env u =
        { result := RunResult.err "domains dont match", trace := [] }) := by
  constructor
  · intro env s a h
    simp [DeleteCommunityActivity.verify, verify_domains_match, h]
  · intro env u h
    simp [UndoDelete.verify, verify_activity, verify_domains_match, h]

/-- Witness for C6 at a concrete spoofed delete and a concrete spoofed undo. -/
theorem verify_domain_mismatch_rejects_first_witness :
    DeleteCommunityActivity.verify env0 s0 aMismatch =
      { result := RunResult.err "domains dont match", trace := [] } ∧
    UndoDelete.verify env0 undoMismatch =
      { result := RunResult.err "domains dont match", trace := [] } :=
  ⟨verify_domain_mismatch_rejects_first.1 env0 s0 aMismatch (by decide),
   verify_domain_mismatch_rejects_first.2 env0 undoMismatch (by decide)⟩

/-- Claim C7: a local DeleteCommunity request from anyone who is not the
moderator at index 0 fails with `no_community_edit_allowed`, leaving the state
unchanged and the trace empty (no flag update, no notification, no
forwarding); the top moderator's request proceeds to set the `deleted` flag. -/
theorem delete_community_requires_top_mod :
    ∀ (env : Env) (s : DbState) (data : DeleteCommunityRequest) (wsid : Option Nat)
      (personId topModId : Nat) (rest : List Nat),
      env.jwtLocalUser data.auth = some personId →
      env.moderators data.community_id = topModId :: rest →
      (personId ≠ topModId →
        DeleteCommunityRequest.perform env s data wsid =
          { result := RunResult.err "no_community_edit_allowed", state := s, trace := [] }) ∧
      (personId = topModId →
        ∀ (c2 : Community) (s2 : DbState),
          Community.update_deleted s data.community_id data.deleted = some (c2, s2) →
          env.apubSendOk = true →
          DeleteCommunityRequest.perform env s data wsid =
            { result := RunResult.ok, state := s2,
              trace := [Event.updateCommunityDeleted data.community_id data.deleted,
                Event.sendApubDelete personId data.community_id data.deleted,
                Event.wsMessage data.community_id UserOperationCrud.DeleteCommunity wsid
                  (some personId)] } ∧
          deletedFlag s2 data.community_id = some data.deleted) := by
  intro env s data wsid personId topModId rest hjwt hmods
  constructor
  · intro hne
    simp [DeleteCommunityRequest.perform, hjwt, hmods, hne]
  · intro heq c2 s2 hupd hsend
    subst heq
    refine ⟨?_, (update_deleted_flag hupd).1⟩
    simp [DeleteCommunityRequest.perform, hjwt, hmods, hupd, hsend]

/-- Witness for C7: person 9 is rejected, top moderator 7 succeeds. -/
theorem delete_community_requires_top_mod_witness :
    DeleteCommunityRequest.perform env0 s0 ⟨1, true, "tok9"⟩ none =
      { result := RunResult.err "no_community_edit_allowed", state := s0, trace := [] } ∧
    DeleteCommunityRequest.perform env0 s0 ⟨1, true, "tok7"⟩ none =
      { result := RunResult.ok,
        state := ⟨[⟨1, uLocal, true, true, false⟩, cRemote], [], []⟩,
        trace := [Event.updateCommunityDeleted 1 true, Event.sendApubDelete 7 1 true,
          Event.wsMessage 1 UserOperationCrud.DeleteCommunity none (some 7)] } := by
  constructor
  · exact (delete_community_requires_top_mod env0 s0 ⟨1, true, "tok9"⟩ none 9 7 [8]
      (by decide) (by decide)).1 (by decide)
  · exact ((delete_community_requires_top_mod env0 s0 ⟨1, true, "tok7"⟩ none 7 7 [8]
      (by decide) (by decide)).2 rfl ⟨1, uLocal, true, true, false⟩
      ⟨[⟨1, uLocal, true, true, false⟩, cRemote], [], []⟩ (by decide) rfl).1

/-- Claim C8: a successful admin RemoveCommunity request sets the `removed`
flag to the requested value and produces, in this order, the flag update, the
moderation-log entry carrying the acting person id, the community id, the
removed value, the reason and the optional expiry, the outbound apub remove,
and one `RemoveCommunity` notification carrying the acting person id. -/
theorem remove_community_success_effects :
    ∀ (env : Env) (s : DbState) (data : RemoveCommunityRequest) (wsid : Option Nat)
      (personId : Nat) (c2 : Community) (s2 : DbState),
      env.jwtLocalUser data.auth = some personId →
      env.isAdmin personId = true →
      Community.update_removed s data.community_id data.removed = some (c2, s2) →
      env.apubSendOk = true →
      RemoveCommunityRequest.perform env s data wsid =
        { result := RunResult.ok, state := s2,
          trace := [Event.updateCommunityRemoved data.community_id data.removed,
            Event.createModLogEntry personId data.community_id data.removed data.reason
              data.expires,
            Event.sendApubRemove personId data.community_id (data.reason.getD "") data.removed,
            Event.wsMessage data.community_id UserOperationCrud.RemoveCommunity wsid
              (some personId)] } ∧
      removedFlag s2 data.community_id = some data.removed := by
  intro env s data wsid personId c2 s2 hjwt hadmin hupd hsend
  refine ⟨?_, (update_removed_flag hupd).1⟩
  simp [RemoveCommunityRequest.perform, hjwt, hadmin, hupd, hsend]

/-- Witness for C8: admin 9 removes community 1 with a reason and an expiry. -/
theorem remove_community_success_effects_witness :
    RemoveCommunityRequest.perform env0 s0 ⟨1, true, some "spam wave", some 777, "tok9"⟩
        (some 33) =
      { result := RunResult.ok,
        state := ⟨[⟨1, uLocal, true, false, true⟩, cRemote], [], []⟩,
        trace := [Event.updateCommunityRemoved 1 true,
          Event.createModLogEntry 9 1 true (some "spam wave") (some 777),
          Event.sendApubRemove 9 1 "spam wave" true,
          Event.wsMessage 1 UserOperationCrud.RemoveCommunity (some 33) (some 9)] } ∧
    removedFlag (⟨[⟨1, uLocal, true, false, true⟩, cRemote], [], []⟩ : DbState) 1 = some true :=
  remove_community_success_effects env0 s0 ⟨1, true, some "spam wave", some 777, "tok9"⟩
    (some 33) 9 ⟨1, uLocal, true, false, true⟩
    ⟨[⟨1, uLocal, true, false, true⟩, cRemote], [], []⟩ (by decide) (by decide) (by decide) rfl

/-- Claim C9: `DeleteCommunity::perform` indexes element 0 of the moderator
list unconditionally: with an empty moderator list it neither succeeds nor
returns an error value but panics, and with a non-empty moderator list no
input can make it panic, so totality needs the non-empty precondition. -/
theorem delete_community_empty_mods_panics :
    (∀ (env : Env) (s : DbState) (data : DeleteCommunityRequest) (wsid : Option Nat)
      (personId : Nat),
      env.jwtLocalUser data.auth = some personId →
      env.moderators data.community_id = [] →
      DeleteCommunityRequest.perform env s data wsid =
        { result := RunResult.panicked "index out of bounds: the len is 0 but the index is 0",
          state := s, trace := [] }) ∧
    (∀ (env : Env) (s : DbState) (data : DeleteCommunityRequest) (wsid : Option Nat)
      (msg : String),
      env.moderators data.community_id ≠ [] →
      (DeleteCommunityRequest.perform env s data wsid).result ≠ RunResult.panicked msg) := by
  constructor
  · intro env s data wsid personId hjwt hmods
    simp [DeleteCommunityRequest.perform, hjwt, hmods]
  · intro env s data wsid msg hmods
    unfold DeleteCommunityRequest.perform
    cases hj : env.jwtLocalUser data.auth with
    | none => simp
    | some personId =>
        cases hm : env.moderators data.community_id with
        | nil => exact absurd hm hmods
        | cons topModId rest =>
            by_cases hne : personId ≠ topModId
            · simp [hne]
            · cases hupd : Community.update_deleted s data.community_id data.deleted with
              | none => simp [hne, hupd]
              | some pr =>
                  rcases pr with ⟨c2, s2⟩
                  cases hsend : env.apubSendOk with
                  | false => simp [hne, hupd, hsend]
                  | true => simp [hne, hupd, hsend]

/-- Witness for C9: community 5 has no moderators and the request panics;
community 1 has moderators and the same request shape cannot panic. -/
theorem delete_community_empty_mods_panics_witness :
    DeleteCommunityRequest.perform env0 s0 ⟨5, true, "tok7"⟩ none =
      { result := RunResult.panicked "index out of bounds: the len is 0 but the index is 0",
        state := s0, trace := [] } ∧
    (DeleteCommunityRequest.perform env0 s0 ⟨1, true, "tok7"⟩ none).result ≠
      RunResult.panicked "index out of bounds: the len is 0 but the index is 0" :=
  ⟨delete_community_empty_mods_panics.1 env0 s0 ⟨5, true, "tok7"⟩ none 7 (by decide) (by decide),
   delete_community_empty_mods_panics.2 env0 s0 ⟨1, true, "tok7"⟩ none
     "index out of bounds: the len is 0 but the index is 0" (by decide)⟩

/-- Claim C2 counterexample: at this concrete input the storage update has
committed (the flag is `true` in the final state), the outbound apub delete
fails, and the operation returns an error with no websocket notification in
the trace — contradicting the claim that a forwarding failure is never
surfaced and that the operation still returns success with its notification. -/
theorem forwarding_failure_surfaced :
    (DeleteCommunityRequest.perform envNoSend s0 ⟨1, true, "tok7"⟩ none).result =
      RunResult.err "couldnt send apub delete" ∧
    deletedFlag (DeleteCommunityRequest.perform envNoSend s0 ⟨1, true, "tok7"⟩ none).state 1 =
      some true ∧
    (DeleteCommunityRequest.perform envNoSend s0 ⟨1, true, "tok7"⟩ none).trace =
      [Event.updateCommunityDeleted 1 true] := by decide

/-- Claim C2 as amended: when the outbound apub send fails after the local
storage update committed, the failure is propagated as the operation's error,
the committed flag update is not rolled back, and the notification is not
emitted — for DeleteCommunity and RemoveCommunity alike. -/
theorem forwarding_failure_propagates_after_commit :
    (∀ (env : Env) (s : DbState) (data : DeleteCommunityRequest) (wsid : Option Nat)
      (personId : Nat) (rest : List Nat) (c2 : Community) (s2 : DbState),
      env.jwtLocalUser data.auth = some personId →
      env.moderators data.community_id = personId :: rest →
      Community.update_deleted s data.community_id data.deleted = some (c2, s2) →
      env.apubSendOk = false →
      DeleteCommunityRequest.perform env s data wsid =
        { result := RunResult.err "couldnt send apub delete", state := s2,
          trace := [Event.updateCommunityDeleted data.community_id data.deleted] } ∧
      deletedFlag s2 data.community_id = some data.deleted) ∧
    (∀ (env : Env) (s : DbState) (data : RemoveCommunityRequest) (wsid : Option Nat)
      (personId : Nat) (c2 : Community) (s2 : DbState),
      env.jwtLocalUser data.auth = some personId →
      env.isAdmin personId = true →
      Community.update_removed s data.community_id data.removed = some (c2, s2) →
      env.apubSendOk = false →
      RemoveCommunityRequest.perform env s data wsid =
        { result := RunResult.err "couldnt send apub remove", state := s2,
          trace := [Event.updateCommunityRemoved data.community_id data.removed,
            Event.createModLogEntry personId data.community_id data.removed data.reason
              data.expires] } ∧
      removedFlag s2 data.community_id = some data.removed) := by
  constructor
  · intro env s data wsid personId rest c2 s2 hjwt hmods hupd hsend
    refine ⟨?_, (update_deleted_flag hupd).1⟩
    simp [DeleteCommunityRequest.perform, hjwt, hmods, hupd, hsend]
  · intro env s data wsid personId c2 s2 hjwt hadmin hupd hsend
    refine ⟨?_, (update_removed_flag hupd).1⟩
    simp [RemoveCommunityRequest.perform, hjwt, hadmin, hupd, hsend]

/-- Witness for the amended C2 at concrete failing-delivery runs of both
operations. -/
theorem forwarding_failure_propagates_after_commit_witness :
    (DeleteCommunityRequest.perform envNoSend s0 ⟨1, false, "tok7"⟩ none =
      { result := RunResult.err "couldnt send apub delete",
        state := ⟨[cLocal, cRemote], [], []⟩,
        trace := [Event.updateCommunityDeleted 1 false] } ∧
      deletedFlag (⟨[cLocal, cRemote], [], []⟩ : DbState) 1 = some false) ∧
    (RemoveCommunityRequest.perform envNoSend s0 ⟨2, false, some "oops", none, "tok9"⟩ none =
      { result := RunResult.err "couldnt send apub remove",
        state := ⟨[cLocal, ⟨2, uRemote, false, false, false⟩], [], []⟩,
        trace := [Event.updateCommunityRemoved 2 false,
          Event.createModLogEntry 9 2 false (some "oops") none] } ∧
      removedFlag (⟨[cLocal, ⟨2, uRemote, false, false, false⟩], [], []⟩ : DbState) 2 =
        some false) :=
  ⟨forwarding_failure_propagates_after_commit.1 envNoSend s0 ⟨1, false, "tok7"⟩ none 7 [8]
      cLocal ⟨[cLocal, cRemote], [], []⟩ (by decide) (by decide) (by decide) rfl,
   forwarding_failure_propagates_after_commit.2 envNoSend s0 ⟨2, false, some "oops", none, "tok9"⟩
      none 9 ⟨2, uRemote, false, false, false⟩ ⟨[cLocal, ⟨2, uRemote, false, false, false⟩], [], []⟩
      (by decide) (by decide) (by decide) rfl⟩

/-- Claim C1 counterexample: `undoRemoveRemote` carries an undo-remove of the
remote-origin community 2, issued by a remote admin identity, yet the run
succeeds, sets `removed` to `false`, and emits an `EditCommunity`
notification — the claim says such a request is rejected with no flag update
and no notification. The handler never inspects the requesting identity. -/
theorem undo_remove_remote_admin_not_rejected :
    (UndoDelete.receive env0 s0 undoRemoveRemote).result = RunResult.ok ∧
    removedFlag (UndoDelete.receive env0 s0 undoRemoveRemote).state 2 = some false ∧
    (UndoDelete.receive env0 s0 undoRemoveRemote).trace =
      [Event.readObject uRemote, Event.updateCommunityRemoved 2 false,
        Event.wsMessage 2 UserOperationCrud.EditCommunity none none] := by decide

/-- Claim C1 as amended: the decision is keyed on the community's origin, not
on the requesting identity. An undo-remove of a local-origin community is
rejected with an error, no flag update and no notification; an undo-remove of
a remote-origin community succeeds for any requesting identity, sets `removed`
to `false`, and emits exactly one `EditCommunity` notification. -/
theorem undo_remove_decided_by_community_origin :
    ∀ (env : Env) (s : DbState) (u : UndoDelete) (c : Community),
      u.object.summary.isSome = true →
      DeletableObjects.read_from_db s u.object.object = some (DeletableObjects.Community c) →
      (c.«local» = true →
        UndoDelete.receive env s u =
          { result := RunResult.err "Only local admin can restore community", state := s,
            trace := [Event.readObject u.object.object] }) ∧
      (c.«local» = false →
        ∀ (c2 : Community) (s2 : DbState),
          Community.update_removed s c.id false = some (c2, s2) →
          UndoDelete.receive env s u =
            { result := RunResult.ok, state := s2,
              trace := [Event.readObject u.object.object,
                Event.updateCommunityRemoved c.id false,
                Event.wsMessage c.id UserOperationCrud.EditCommunity none none] } ∧
          removedFlag s2 c.id = some false) := by
  intro env s u c hsum hres
  constructor
  · intro hloc
    simp [UndoDelete.receive, hsum, UndoDelete.receive_undo_remove_action, hres, hloc]
  · intro hloc c2 s2 hupd
    have hflag := update_removed_flag hupd
    refine ⟨?_, hflag.1⟩
    simp [UndoDelete.receive, hsum, UndoDelete.receive_undo_remove_action, hres, hloc, hupd,
      hflag.2]

/-- Witness for the amended C1: the local community is protected, the remote
mirror is restored with exactly one `EditCommunity` notification. -/
theorem undo_remove_decided_by_community_origin_witness :
    UndoDelete.receive env0 s0 undoRemoveLocal =
      { result := RunResult.err "Only local admin can restore community", state := s0,
        trace := [Event.readObject uLocal] } ∧
    (UndoDelete.receive env0 s0 undoRemoveRemote =
      { result := RunResult.ok,
        state := ⟨[cLocal, ⟨2, uRemote, false, false, false⟩], [], []⟩,
        trace := [Event.readObject uRemote, Event.updateCommunityRemoved 2 false,
          Event.wsMessage 2 UserOperationCrud.EditCommunity none none] } ∧
      removedFlag (⟨[cLocal, ⟨2, uRemote, false, false, false⟩], [], []⟩ : DbState) 2 =
        some false) := by
  constructor
  · exact (undo_remove_decided_by_community_origin env0 s0 undoRemoveLocal cLocal
      (by decide) (by decide)).1 (by decide)
  · exact (undo_remove_decided_by_community_origin env0 s0 undoRemoveRemote cRemote
      (by decide) (by decide)).2 (by decide) ⟨2, uRemote, false, false, false⟩
      ⟨[cLocal, ⟨2, uRemote, false, false, false⟩], [], []⟩ (by decide)

/-- Claim C10 counterexample: for this activity the object is not stored
locally, the actor domain matches both the object domain and the cc domain,
yet verification fails — because the first check, which the claim omits,
compares the actor domain with the activity id domain. -/
theorem verify_unresolved_iff_fails :
    Community.read_from_apub_id s0 aTenMismatch.object = none ∧
    aTenMismatch.common.actor.domain = aTenMismatch.object.domain ∧
    aTenMismatch.common.actor.domain = aTenMismatch.cc.domain ∧
    (DeleteCommunityActivity.verify env0 s0 aTenMismatch).result ≠ RunResult.ok := by decide

/-- Claim C10 as amended: on the unresolved-object branch verification
succeeds exactly when the actor domain matches the activity id domain, the
object domain, and the cc domain; and the outcome is independent of the
environment, so no moderator/admin authorization check and no blocked-instance
check is performed on this branch. -/
theorem verify_unresolved_branch_characterization :
    ∀ (env env2 : Env) (s : DbState) (a : DeleteCommunityActivity),
      Community.read_from_apub_id s a.object = none →
      ((DeleteCommunityActivity.verify env s a).result = RunResult.ok ↔
        (a.common.actor.domain = a.common.id.domain ∧
         a.common.actor.domain = a.object.domain ∧
         a.common.actor.domain = a.cc.domain)) ∧
      DeleteCommunityActivity.verify env s a = DeleteCommunityActivity.verify env2 s a := by
  intro env env2 s a hread
  constructor
  · simp only [DeleteCommunityActivity.verify, verify_domains_match, hread,
      decide_eq_false_iff_not, Decidable.not_not]
    split_ifs with g1 g2 g3 <;> simp_all
  · simp [DeleteCommunityActivity.verify, verify_domains_match, hread]

/-- Witness for the amended C10 at a concrete unresolved activity and two
environments that disagree on every authorization check. -/
theorem verify_unresolved_branch_characterization_witness :
    ((DeleteCommunityActivity.verify env0 s0 aTenMismatch).result = RunResult.ok ↔
      (aTenMismatch.common.actor.domain = aTenMismatch.common.id.domain ∧
       aTenMismatch.common.actor.domain = aTenMismatch.object.domain ∧
       aTenMismatch.common.actor.domain = aTenMismatch.cc.domain)) ∧
    DeleteCommunityActivity.verify env0 s0 aTenMismatch =
      DeleteCommunityActivity.verify envStrict s0 aTenMismatch :=
  verify_unresolved_branch_characterization env0 envStrict s0 aTenMismatch (by decide)

/-- Computation of `DeleteCommunity::receive` on the stored-community branch. -/
theorem receive_stored_eq {env : Env} {s : DbState} {a : DeleteCommunityActivity} {c : Community}
    {personId : Nat} {c2 : Community} {s2 : DbState}
    (hread : Community.read_from_apub_id s a.object = some c)
    (hp : env.fetchPerson a.common.actor = some personId)
    (hs : env.sendDeleteOk = true)
    (hupd : Community.update_deleted s c.id true = some (c2, s2)) :
    DeleteCommunityActivity.receive env s a =
      { result := RunResult.ok, state := s2,
        trace := [Event.readCommunity a.object, Event.fetchPerson a.common.actor,
          Event.forwardDeleteToFollowers c.id personId,
          Event.updateCommunityDeleted c.id true,
          Event.wsMessage c2.id UserOperationCrud.DeleteCommunity none none] } := by
  simp [DeleteCommunityActivity.receive, get_or_fetch_and_upsert_person, hread, hp, hs, hupd]

/-- Computation of `DeleteCommunity::receive` on the unresolved branch. -/
theorem receive_fetched_eq {env : Env} {s : DbState} {a : DeleteCommunityActivity}
    {c : Community} {c2 : Community} {s2 : DbState}
    (hread : Community.read_from_apub_id s a.object = none)
    (hf : env.fetchCommunity a.object = some c)
    (hupd : Community.update_deleted { s with communities := c :: s.communities } c.id true
      = some (c2, s2)) :
    DeleteCommunityActivity.receive env s a =
      { result := RunResult.ok, state := s2,
        trace := [Event.readCommunity a.object, Event.fetchCommunity a.object,
          Event.updateCommunityDeleted c.id true,
          Event.wsMessage c2.id UserOperationCrud.DeleteCommunity none none] } := by
  simp [DeleteCommunityActivity.receive, get_or_fetch_and_upsert_community, hread, hf, hupd]

/-- `update_deleted` on a state whose head community is the target. -/
theorem update_deleted_cons_self (s : DbState) (c : Community) (b : Bool) :
    Community.update_deleted { s with communities := c :: s.communities } c.id b =
      some ({ c with deleted := b },
        DbState.mk ((c :: s.communities).map
            (fun d => if d.id = c.id then { d with deleted := b } else d))
          s.posts s.comments) := by
  simp [Community.update_deleted, List.find?_cons]

/-- Equation for `read_from_apub_id` on a literal state. -/
theorem read_mk (l : List Community) (ps : List Post) (cs : List Comment) (u : Url) :
    Community.read_from_apub_id (DbState.mk l ps cs) u =
      l.find? (fun d => decide (d.actor_id = u)) := rfl

/-- Equation for `deletedFlag` on a literal state. -/
theorem deletedFlag_mk (l : List Community) (ps : List Post) (cs : List Comment) (cid : Nat) :
    deletedFlag (DbState.mk l ps cs) cid =
      (l.find? (fun d => decide (d.id = cid))).map Community.deleted := rfl

/-- A successful search by id determines the whole `update_deleted` result. -/
theorem update_deleted_of_find (s : DbState) (cid : Nat) (b : Bool) (c : Community)
    (h : s.communities.find? (fun d => decide (d.id = cid)) = some c) :
    Community.update_deleted s cid b =
      some ({ c with deleted := b },
        DbState.mk (s.communities.map (fun d => if d.id = cid then { d with deleted := b } else d))
          s.posts s.comments) := by
  simp [Community.update_deleted, h]

/-- `update_deleted_of_find` specialised to a literal state. -/
theorem update_deleted_mk (l : List Community) (ps : List Post) (cs : List Comment)
    (cid : Nat) (b : Bool) (c : Community)
    (h : l.find? (fun d => decide (d.id = cid)) = some c) :
    Community.update_deleted (DbState.mk l ps cs) cid b =
      some ({ c with deleted := b },
        DbState.mk (l.map (fun d => if d.id = cid then { d with deleted := b } else d)) ps cs) := by
  simp [Community.update_deleted, h]

/-- Claim C4: an inbound apub Delete whose object is stored locally resolves
the acting person, forwards the delete to the community's followers, and then
sets `deleted` to `true` with one `DeleteCommunity` notification; when the
object is not stored locally the remote community is refetched instead of
forwarding, and `deleted` is likewise set to `true`. -/
theorem delete_receive_local_forwards_remote_refetches :
    ∀ (env : Env) (s : DbState) (a : DeleteCommunityActivity) (personId : Nat),
      env.fetchPerson a.common.actor = some personId →
      env.sendDeleteOk = true →
      (∀ c : Community, Community.read_from_apub_id s a.object = some c →
        ∀ (c2 : Community) (s2 : DbState),
          Community.update_deleted s c.id true = some (c2, s2) →
          DeleteCommunityActivity.receive env s a =
            { result := RunResult.ok, state := s2,
              trace := [Event.readCommunity a.object, Event.fetchPerson a.common.actor,
                Event.forwardDeleteToFollowers c.id personId,
                Event.updateCommunityDeleted c.id true,
                Event.wsMessage c.id UserOperationCrud.DeleteCommunity none none] } ∧
          deletedFlag s2 c.id = some true) ∧
      (Community.read_from_apub_id s a.object = none →
        ∀ c : Community, env.fetchCommunity a.object = some c →
          (DeleteCommunityActivity.receive env s a).result = RunResult.ok ∧
          (DeleteCommunityActivity.receive env s a).trace =
            [Event.readCommunity a.object, Event.fetchCommunity a.object,
              Event.updateCommunityDeleted c.id true,
              Event.wsMessage c.id UserOperationCrud.DeleteCommunity none none] ∧
          deletedFlag (DeleteCommunityActivity.receive env s a).state c.id = some true) := by
  intro env s a personId hp hs
  constructor
  · intro c hread c2 s2 hupd
    have hflag := update_deleted_flag hupd
    have he := receive_stored_eq hread hp hs hupd
    rw [he]
    refine ⟨by rw [hflag.2], hflag.1⟩
  · intro hread c hf
    have hupd := update_deleted_cons_self s c true
    have he := receive_fetched_eq hread hf hupd
    rw [he]
    refine ⟨rfl, rfl, ?_⟩
    simp only [deletedFlag]
    rw [find_map_pres (fun d => decide (d.id = c.id))
      (fun d => if d.id = c.id then { d with deleted := true } else d)
      (fun x => by by_cases hx : x.id = c.id <;> simp [hx]) (c :: s.communities),
      List.find?_cons_of_pos _ (by simp)]
    simp

/-- Witness for C4: a stored local community is forwarded and deleted, an
unresolved community is refetched and deleted. -/
theorem delete_receive_local_forwards_remote_refetches_witness :
    (DeleteCommunityActivity.receive env0 s0 aDelStored =
      { result := RunResult.ok,
        state := ⟨[⟨1, uLocal, true, true, false⟩, cRemote], [], []⟩,
        trace := [Event.readCommunity uLocal, Event.fetchPerson uRemoteAdmin,
          Event.forwardDeleteToFollowers 1 42, Event.updateCommunityDeleted 1 true,
          Event.wsMessage 1 UserOperationCrud.DeleteCommunity none none] } ∧
      deletedFlag (⟨[⟨1, uLocal, true, true, false⟩, cRemote], [], []⟩ : DbState) 1 =
        some true) ∧
    ((DeleteCommunityActivity.receive env0 s0 aDelUnstored).result = RunResult.ok ∧
      (DeleteCommunityActivity.receive env0 s0 aDelUnstored).trace =
        [Event.readCommunity cOther.actor_id, Event.fetchCommunity cOther.actor_id,
          Event.updateCommunityDeleted 3 true,
          Event.wsMessage 3 UserOperationCrud.DeleteCommunity none none] ∧
      deletedFlag (DeleteCommunityActivity.receive env0 s0 aDelUnstored).state 3 =
        some true) := by
  constructor
  · exact (delete_receive_local_forwards_remote_refetches env0 s0 aDelStored 42 rfl rfl).1
      cLocal (by decide) ⟨1, uLocal, true, true, false⟩
      ⟨[⟨1, uLocal, true, true, false⟩, cRemote], [], []⟩ (by decide)
  · exact (delete_receive_local_forwards_remote_refetches env0 s0 aDelUnstored 42 rfl rfl).2
      (by decide) cOther (by decide)

/-- Claim C5: for a received Undo(Delete) the presence of `summary` on the
wrapped Delete decides the restore semantics. On a successful run, with a
summary present the target's `removed` flag ends `false`, with it absent the
target's `deleted` flag ends `false`, and in both cases the Edit-kind
notification matching the target's kind (`EditCommunity` / `EditPost` /
`EditComment`) is emitted. -/
theorem undo_summary_decides_flag :
    ∀ (env : Env) (s : DbState) (u : UndoDelete) (obj : DeletableObjects),
      DeletableObjects.read_from_db s u.object.object = some obj →
      (UndoDelete.receive env s u).result = RunResult.ok →
      (u.object.summary.isSome = true →
        DeletableObjects.removedOf (UndoDelete.receive env s u).state obj = some false ∧
        Event.wsMessage obj.objId obj.editOp none none ∈ (UndoDelete.receive env s u).trace) ∧
      (u.object.summary.isSome = false →
        DeletableObjects.deletedOf (UndoDelete.receive env s u).state obj = some false ∧
        Event.wsMessage obj.objId obj.editOp none none ∈ (UndoDelete.receive env s u).trace) := by
  intro env s u obj hres hok
  cases hsum : u.object.summary.isSome with
  | true =>
      have hrec : UndoDelete.receive env s u =
          UndoDelete.receive_undo_remove_action s u.object.object := by
        simp [UndoDelete.receive, hsum]
      rw [hrec] at hok ⊢
      refine ⟨fun _ => ?_, fun habs => absurd habs (by decide)⟩
      cases obj with
      | Community c =>
          simp only [UndoDelete.receive_undo_remove_action, hres] at hok ⊢
          cases hcl : c.«local» with
          | true => simp [hcl] at hok
          | false =>
              cases hupd : Community.update_removed s c.id false with
              | none => simp [hcl, hupd] at hok
              | some pr =>
                  rcases pr with ⟨c2, s2⟩
                  have hflag := update_removed_flag hupd
                  simp [hcl, hupd, DeletableObjects.removedOf, DeletableObjects.objId,
                    DeletableObjects.editOp, hflag.1, hflag.2]
      | Post p =>
          simp only [UndoDelete.receive_undo_remove_action, hres] at hok ⊢
          cases hupd : Post.update_removed s p.id false with
          | none => simp [hupd] at hok
          | some pr =>
              rcases pr with ⟨p2, s2⟩
              have hflag := post_update_removed_flag hupd
              simp [hupd, DeletableObjects.removedOf, DeletableObjects.objId,
                DeletableObjects.editOp, hflag.1, hflag.2]
      | Comment c =>
          simp only [UndoDelete.receive_undo_remove_action, hres] at hok ⊢
          cases hupd : Comment.update_removed s c.id false with
          | none => simp [hupd] at hok
          | some pr =>
              rcases pr with ⟨c2, s2⟩
              have hflag := comment_update_removed_flag hupd
              simp [hupd, DeletableObjects.removedOf, DeletableObjects.objId,
                DeletableObjects.editOp, hflag.1, hflag.2]
  | false =>
      have hrec : UndoDelete.receive env s u =
          receive_delete_action env s u.object.object u.common.actor
            { community := UserOperationCrud.EditCommunity,
              post := UserOperationCrud.EditPost,
              comment := UserOperationCrud.EditComment } false := by
        simp [UndoDelete.receive, hsum]
      rw [hrec] at hok ⊢
      refine ⟨fun habs => absurd habs (by decide), fun _ => ?_⟩
      cases obj with
      | Community c =>
          simp only [receive_delete_action, hres] at hok ⊢
          cases hcl : c.«local» with
          | true =>
              cases hper : get_or_fetch_and_upsert_person env u.common.actor with
              | none => simp [hcl, hper] at hok
              | some personId =>
                  cases hsend : env.sendDeleteOk with
                  | false => simp [hcl, hper, hsend] at hok
                  | true =>
                      cases hupd : Community.update_deleted s c.id false with
                      | none => simp [hcl, hper, hsend, hupd] at hok
                      | some pr =>
                          rcases pr with ⟨c2, s2⟩
                          have hflag := update_deleted_flag hupd
                          simp [hcl, hper, hsend, hupd, DeletableObjects.deletedOf,
                            DeletableObjects.objId, DeletableObjects.editOp, hflag.1, hflag.2]
          | false =>
              cases hupd : Community.update_deleted s c.id false with
              | none => simp [hcl, hupd] at hok
              | some pr =>
                  rcases pr with ⟨c2, s2⟩
                  have hflag := update_deleted_flag hupd
                  simp [hcl, hupd, DeletableObjects.deletedOf, DeletableObjects.objId,
                    DeletableObjects.editOp, hflag.1, hflag.2]
      | Post p =>
          simp only [receive_delete_action, hres] at hok ⊢
          cases hupd : Post.update_deleted s p.id false with
          | none => simp [hupd] at hok
          | some pr =>
              rcases pr with ⟨p2, s2⟩
              have hflag := post_update_deleted_flag hupd
              simp [hupd, DeletableObjects.deletedOf, DeletableObjects.objId,
                DeletableObjects.editOp, hflag.1, hflag.2]
      | Comment c =>
          simp only [receive_delete_action, hres] at hok ⊢
          cases hupd : Comment.update_deleted s c.id false with
          | none => simp [hupd] at hok
          | some pr =>
              rcases pr with ⟨c2, s2⟩
              have hflag := comment_update_deleted_flag hupd
              simp [hupd, DeletableObjects.deletedOf, DeletableObjects.objId,
                DeletableObjects.editOp, hflag.1, hflag.2]

/-- Witness for C5: an undo without summary restores the post's `deleted`
flag with an `EditPost` notification; an undo with a summary restores the
remote community's `removed` flag. -/
theorem undo_summary_decides_flag_witness :
    (DeletableObjects.deletedOf (UndoDelete.receive env0 sP undoSelfPost).state
        (DeletableObjects.Post pRemote) = some false ∧
      Event.wsMessage 11 UserOperationCrud.EditPost none none ∈
        (UndoDelete.receive env0 sP undoSelfPost).trace) ∧
    DeletableObjects.removedOf (UndoDelete.receive env0 s0 undoRemoveRemote).state
        (DeletableObjects.Community cRemote) = some false :=
  ⟨(undo_summary_decides_flag env0 sP undoSelfPost (DeletableObjects.Post pRemote)
      (by decide) (by decide)).2 rfl,
   ((undo_summary_decides_flag env0 s0 undoRemoveRemote (DeletableObjects.Community cRemote)
      (by decide) (by decide)).1 rfl).1⟩

/-- Claim C3: processing the same received Delete twice is idempotent. Both
runs succeed, the second run leaves the state of the first unchanged, the
target community's `deleted` flag is `true` after each run, the storage update
is invoked with the constant value `true` on both runs (every update event in
either trace carries `true`, regardless of the community's current flag), and
each run emits its `DeleteCommunity` notification exactly once. -/
theorem delete_receive_idempotent :
    ∀ (env : Env) (s : DbState) (a : DeleteCommunityActivity) (c : Community) (personId : Nat)
      (o1 o2 : RunOut),
      env.fetchPerson a.common.actor = some personId →
      env.sendDeleteOk = true →
      (Community.read_from_apub_id s a.object = some c ∨
        (Community.read_from_apub_id s a.object = none ∧
          env.fetchCommunity a.object = some c ∧ c.actor_id = a.object)) →
      o1 = DeleteCommunityActivity.receive env s a →
      o2 = DeleteCommunityActivity.receive env o1.state a →
      o1.result = RunResult.ok ∧ o2.result = RunResult.ok ∧ o2.state = o1.state ∧
      deletedFlag o1.state c.id = some true ∧
      Event.updateCommunityDeleted c.id true ∈ o1.trace ∧
      Event.updateCommunityDeleted c.id true ∈ o2.trace ∧
      (∀ (k : Nat) (v : Bool), Event.updateCommunityDeleted k v ∈ o1.trace → v = true) ∧
      (∀ (k : Nat) (v : Bool), Event.updateCommunityDeleted k v ∈ o2.trace → v = true) ∧
      countWsDel o1.trace = 1 ∧ countWsDel o2.trace = 1 := by
  intro env s a c personId o1 o2 hp hs hc ho1 ho2
  rcases hc with hread | ⟨hread, hfetch, hact⟩
  · have hfA : s.communities.find? (fun d => decide (d.actor_id = a.object)) = some c := hread
    obtain ⟨c0, hf0, hc0⟩ := find_id_of_mem (List.mem_of_find?_eq_some hfA)
    have hupd1 := update_deleted_of_find s c.id true c0 hf0
    have e1 : o1 =
        { result := RunResult.ok,
          state := (DbState.mk (s.communities.map
            (fun d => if d.id = c.id then { d with deleted := true } else d)) s.posts s.comments),
          trace := [Event.readCommunity a.object, Event.fetchPerson a.common.actor,
            Event.forwardDeleteToFollowers c.id personId,
            Event.updateCommunityDeleted c.id true,
            Event.wsMessage c0.id UserOperationCrud.DeleteCommunity none none] } := by
      rw [ho1, receive_stored_eq hread hp hs hupd1]
    have hread2 : Community.read_from_apub_id
        (DbState.mk (s.communities.map
          (fun d => if d.id = c.id then { d with deleted := true } else d)) s.posts s.comments)
        a.object = some { c with deleted := true } := by
      rw [read_mk, find_map_pres (fun d => decide (d.actor_id = a.object))
        (fun d => if d.id = c.id then { d with deleted := true } else d)
        (fun x => by by_cases hx : x.id = c.id <;> simp [hx]) s.communities, hfA]
      simp
    have hfid2 : (s.communities.map
        (fun d => if d.id = c.id then { d with deleted := true } else d)).find?
        (fun d => decide (d.id = c.id)) = some { c0 with deleted := true } := by
      rw [find_map_pres (fun d => decide (d.id = c.id))
        (fun d => if d.id = c.id then { d with deleted := true } else d)
        (fun x => by by_cases hx : x.id = c.id <;> simp [hx]) s.communities, hf0]
      simp [hc0]
    have hupd2 := update_deleted_mk (s.communities.map
        (fun d => if d.id = c.id then { d with deleted := true } else d)) s.posts s.comments
      c.id true { c0 with deleted := true } hfid2
    have hlist : ((s.communities.map
        (fun d => if d.id = c.id then { d with deleted := true } else d)).map
        (fun d => if d.id = c.id then { d with deleted := true } else d)) =
        s.communities.map (fun d => if d.id = c.id then { d with deleted := true } else d) :=
      map_idem _ _ (fun x => by by_cases hx : x.id = c.id <;> simp [hx])
    have e2 : o2 =
        { result := RunResult.ok,
          state := (DbState.mk ((s.communities.map
            (fun d => if d.id = c.id then { d with deleted := true } else d)).map
            (fun d => if d.id = c.id then { d with deleted := true } else d))
            s.posts s.comments),
          trace := [Event.readCommunity a.object, Event.fetchPerson a.common.actor,
            Event.forwardDeleteToFollowers c.id personId,
            Event.updateCommunityDeleted c.id true,
            Event.wsMessage c0.id UserOperationCrud.DeleteCommunity none none] } := by
      rw [ho2, e1]
      exact @receive_stored_eq env _ a { c with deleted := true } personId
        { c0 with deleted := true } _ hread2 hp hs hupd2
    refine ⟨by rw [e1], by rw [e2], by rw [e1, e2, hlist], ?_, by rw [e1]; simp,
      by rw [e2]; simp, ?_, ?_, by rw [e1]; simp [countWsDel], by rw [e2]; simp [countWsDel]⟩
    · rw [e1]
      show deletedFlag (DbState.mk (s.communities.map
        (fun d => if d.id = c.id then { d with deleted := true } else d)) s.posts s.comments)
        c.id = some true
      rw [deletedFlag_mk, hfid2]
      simp
    · intro k v h
      rw [e1] at h
      simp at h
      exact h.2
    · intro k v h
      rw [e2] at h
      simp at h
      exact h.2
  · have hupd1 := update_deleted_cons_self s c true
    have e1 : o1 =
        { result := RunResult.ok,
          state := (DbState.mk ((c :: s.communities).map
            (fun d => if d.id = c.id then { d with deleted := true } else d)) s.posts s.comments),
          trace := [Event.readCommunity a.object, Event.fetchCommunity a.object,
            Event.updateCommunityDeleted c.id true,
            Event.wsMessage c.id UserOperationCrud.DeleteCommunity none none] } := by
      rw [ho1, receive_fetched_eq hread hfetch hupd1]
    have hread2 : Community.read_from_apub_id
        (DbState.mk ((c :: s.communities).map
          (fun d => if d.id = c.id then { d with deleted := true } else d)) s.posts s.comments)
        a.object = some { c with deleted := true } := by
      rw [read_mk, find_map_pres (fun d => decide (d.actor_id = a.object))
        (fun d => if d.id = c.id then { d with deleted := true } else d)
        (fun x => by by_cases hx : x.id = c.id <;> simp [hx]) (c :: s.communities),
        List.find?_cons_of_pos _ (by simp [hact])]
      simp
    have hfid2 : ((c :: s.communities).map
        (fun d => if d.id = c.id then { d with deleted := true } else d)).find?
        (fun d => decide (d.id = c.id)) = some { c with deleted := true } := by
      rw [find_map_pres (fun d => decide (d.id = c.id))
        (fun d => if d.id = c.id then { d with deleted := true } else d)
        (fun x => by by_cases hx : x.id = c.id <;> simp [hx]) (c :: s.communities),
        List.find?_cons_of_pos _ (by simp)]
      simp
    have hupd2 := update_deleted_mk ((c :: s.communities).map
        (fun d => if d.id = c.id then { d with deleted := true } else d)) s.posts s.comments
      c.id true { c with deleted := true } hfid2
    have hlist : (((c :: s.communities).map
        (fun d => if d.id = c.id then { d with deleted := true } else d)).map
        (fun d => if d.id = c.id then { d with deleted := true } else d)) =
        (c :: s.communities).map (fun d => if d.id = c.id then { d with deleted := true } else d) :=
      map_idem _ _ (fun x => by by_cases hx : x.id = c.id <;> simp [hx])
    have e2 : o2 =
        { result := RunResult.ok,
          state := (DbState.mk (((c :: s.communities).map
            (fun d => if d.id = c.id then { d with deleted := true } else d)).map
            (fun d => if d.id = c.id then { d with deleted := true } else d))
            s.posts s.comments),
          trace := [Event.readCommunity a.object, Event.fetchPerson a.common.actor,
            Event.forwardDeleteToFollowers c.id personId,
            Event.updateCommunityDeleted c.id true,
            Event.wsMessage c.id UserOperationCrud.DeleteCommunity none none] } := by
      rw [ho2, e1]
      exact @receive_stored_eq env _ a { c with deleted := true } personId
        { c with deleted := true } _ hread2 hp hs hupd2
    refine ⟨by rw [e1], by rw [e2], by rw [e1, e2, hlist], ?_, by rw [e1]; simp,
      by rw [e2]; simp, ?_, ?_, by rw [e1]; simp [countWsDel], by rw [e2]; simp [countWsDel]⟩
    · rw [e1]
      show deletedFlag (DbState.mk ((c :: s.communities).map
        (fun d => if d.id = c.id then { d with deleted := true } else d)) s.posts s.comments)
        c.id = some true
      rw [deletedFlag_mk, hfid2]
      simp
    · intro k v h
      rw [e1] at h
      simp at h
      exact h.2
    · intro k v h
      rw [e2] at h
      simp at h
      exact h.2

/-- Witness for C3: the delete of the stored local community 1 applied twice. -/
theorem delete_receive_idempotent_witness :
    (DeleteCommunityActivity.receive env0 s0 aDelStored).result = RunResult.ok ∧
    (DeleteCommunityActivity.receive env0
        (DeleteCommunityActivity.receive env0 s0 aDelStored).state aDelStored).result =
      RunResult.ok ∧
    (DeleteCommunityActivity.receive env0
        (DeleteCommunityActivity.receive env0 s0 aDelStored).state aDelStored).state =
      (DeleteCommunityActivity.receive env0 s0 aDelStored).state ∧
    deletedFlag (DeleteCommunityActivity.receive env0 s0 aDelStored).state 1 = some true ∧
    Event.updateCommunityDeleted 1 true ∈
      (DeleteCommunityActivity.receive env0 s0 aDelStored).trace ∧
    Event.updateCommunityDeleted 1 true ∈
      (DeleteCommunityActivity.receive env0
        (DeleteCommunityActivity.receive env0 s0 aDelStored).state aDelStored).trace ∧
    (∀ (k : Nat) (v : Bool), Event.updateCommunityDeleted k v ∈
      (DeleteCommunityActivity.receive env0 s0 aDelStored).trace → v = true) ∧
    (∀ (k : Nat) (v : Bool), Event.updateCommunityDeleted k v ∈
      (DeleteCommunityActivity.receive env0
        (DeleteCommunityActivity.receive env0 s0 aDelStored).state aDelStored).trace →
      v = true) ∧
    countWsDel (DeleteCommunityActivity.receive env0 s0 aDelStored).trace = 1 ∧
    countWsDel (DeleteCommunityActivity.receive env0
      (DeleteCommunityActivity.receive env0 s0 aDelStored).state aDelStored).trace = 1 :=
  delete_receive_idempotent env0 s0 aDelStored cLocal 42
    (DeleteCommunityActivity.receive env0 s0 aDelStored)
    (DeleteCommunityActivity.receive env0
      (DeleteCommunityActivity.receive env0 s0 aDelStored).state aDelStored)
    rfl rfl (Or.inl (by decide)) rfl rfl

end Lemmy
